import Mathlib

/-!
Verification development for the bibliom row-caching ORM layer
(`bibliom/dbtable.py`, `bibliom/dbentity.py`, `bibliom/dbmanager.py`).

The Python code is shallowly embedded: rows are association lists from
column names to `Value`s, the per-table cache (`DBTable.rows`,
`DBTable.row_status`, `DBTable.next_key`) and the backing MySQL store are
explicit state, and every operation is a function
`St → Except PyErr α × St` (Python exceptions propagate but mutations
performed before the raise persist, exactly as in Python).
-/

/-- A Python value as stored in a row: `None`, a string, or an integer. -/
inductive Value where
  | none : Value
  | str : String → Value
  | int : Int → Value
deriving DecidableEq

/-- Python truthiness of a row value (`not value` in the source):
`None`, `""` and `0` are falsy. -/
def Value.truthy : Value → Bool
  | .none => false
  | .str s => !(s == "")
  | .int n => !(n == 0)

/-- A Python dict of column names to values, as an insertion-ordered
association list (Python dicts preserve insertion order). -/
abbrev Dict : Type := List (String × Value)

/-- `d.get(k)` returning an `Option`: first binding of `k`. -/
def dictGet? (d : Dict) (k : String) : Option Value :=
  match d with
  | [] => Option.none
  | p :: rest => if p.1 == k then some p.2 else dictGet? rest k

/-- `d.get(k)`: `None` when the key is absent. -/
def dictGetD (d : Dict) (k : String) : Value :=
  (dictGet? d k).getD Value.none

/-- `d[k] = v`: overwrite in place when the key exists (keeping its
position, as Python does), else append. -/
def dictSet (d : Dict) (k : String) (v : Value) : Dict :=
  match d with
  | [] => [(k, v)]
  | p :: rest => if p.1 == k then (k, v) :: rest else p :: dictSet rest k v

/-- Keys of a dict, in insertion order. -/
def dictKeys (d : Dict) : List String := d.map (fun p => p.1)

/- ### Decimal digits, `str(int)` and `int(str)` -/

/-- One decimal digit character, as produced by Python `str`. -/
def digitChar : Nat → Char
  | 0 => '0' | 1 => '1' | 2 => '2' | 3 => '3' | 4 => '4'
  | 5 => '5' | 6 => '6' | 7 => '7' | 8 => '8' | _ => '9'

/-- Numeric value of a digit character. -/
def charVal (c : Char) : Nat := c.toNat - 48

/-- Decimal digit characters, fuel-bounded so that the recursion is
structural (any `fuel > m` is enough). -/
def natDigitsF : Nat → Nat → List Char
  | 0, _ => []
  | Nat.succ fuel, m =>
    if m < 10 then [digitChar m]
    else natDigitsF fuel (m / 10) ++ [digitChar (m % 10)]

/-- Decimal digit characters of a natural number, most significant first
(the characters of Python `str(n)` for `n ≥ 0`). -/
def natDigits (m : Nat) : List Char := natDigitsF (m + 1) m

/-- Characters of Python `str(n)` for an integer `n`. -/
def intChars : Int → List Char
  | Int.ofNat m => natDigits m
  | Int.negSucc k => '-' :: natDigits (k + 1)

/-- Python `str(n)` for a natural number. -/
def pyNatStr (n : Nat) : String := String.mk (natDigits n)

/-- Python `str` of a row value (`str(None) = "None"`). -/
def pyStrChars : Value → List Char
  | Value.none => ['N', 'o', 'n', 'e']
  | Value.str s => s.data
  | Value.int n => intChars n

/-- Digit run of Python `int()`: digits with single underscores allowed
between digits; accumulates the value. -/
def digitsValAux (acc : Nat) : List Char → Option Nat
  | [] => some acc
  | c :: cs =>
    if c = '_' then
      match cs with
      | [] => Option.none
      | c2 :: cs2 =>
        if c2.isDigit then digitsValAux (acc * 10 + charVal c2) cs2 else Option.none
    else if c.isDigit then digitsValAux (acc * 10 + charVal c) cs else Option.none

/-- Digit run of Python `int()`: must start with a digit. -/
def digitsVal : List Char → Option Nat
  | [] => Option.none
  | c :: cs => if c.isDigit then digitsValAux (charVal c) cs else Option.none

/-- Strip leading and trailing whitespace (Python `int()` strips). -/
def trimWS (cs : List Char) : List Char :=
  ((cs.dropWhile Char.isWhitespace).reverse.dropWhile Char.isWhitespace).reverse

/-- The sign-and-digits dispatch of Python `int()`, applied after
whitespace stripping. -/
def pyIntCore : List Char → Option Int
  | [] => Option.none
  | c :: rest =>
    if c = '-' then (digitsVal rest).map (fun m => -(m : Int))
    else if c = '+' then (digitsVal rest).map (fun m => (m : Int))
    else (digitsVal (c :: rest)).map (fun m => (m : Int))

/-- Python `int(s)`, returning `none` where Python raises `ValueError`:
strip whitespace, then optional sign and a base-10 digit run with
optional underscores. -/
def pyInt? (cs : List Char) : Option Int :=
  pyIntCore (trimWS cs)

/- ### The key codec (`DBTable.dict_to_key` / `DBTable.key_to_dict`) -/

/-- The key delimiter `KEY_STR_DELIMITER = "%%"` as characters. -/
def delimChars : List Char := ['%', '%']

/-- `DELIM.join(parts)` at the character level. -/
def joinDelim : List (List Char) → List Char
  | [] => []
  | [p] => p
  | p :: ps => p ++ delimChars ++ joinDelim ps

/-- Python `s.split("%%")`: greedy left-to-right split on the
two-character delimiter (`"".split` gives `[""]`). -/
def splitDD : List Char → List (List Char)
  | [] => [[]]
  | [c] => [[c]]
  | c1 :: c2 :: rest =>
    if c1 = '%' ∧ c2 = '%' then [] :: splitDD rest
    else
      match splitDD (c2 :: rest) with
      | [] => [[c1]]
      | p :: ps => (c1 :: p) :: ps

/-- Error outcomes of the embedded Python code. -/
inductive PyErr where
  | typeError       -- e.g. subscripting the `None` from `_query_params`
  | valueError      -- `ValueError`
  | keyError        -- `KeyError`
  | attributeError  -- `AttributeError`
  | dupEntry        -- `MySQLdb.IntegrityError` with errno 1062
  | otherMySqlError -- any other `MySQLdb.Error`
  | dbIntegrityError  -- `exceptions.DBIntegrityError`
  | dbUnsyncedError   -- `exceptions.DBUnsyncedError`
  | biblioException   -- `exceptions.BiblioException`
  | recursionDepth    -- Python `RecursionError` (modelled as fuel exhaustion)
  | unmodeledQuery    -- LIKE / comparison-operator filters: outside this model
deriving DecidableEq

/-- `DBTable.dict_to_key`: join the keys with `"%%"`, then `"%%"`, then
the stringified values joined with `"%%"`. -/
def DBTable.dict_to_key (d : Dict) : String :=
  String.mk (joinDelim (d.map (fun p => p.1.data))
    ++ delimChars
    ++ joinDelim (d.map (fun p => pyStrChars p.2)))

/-- Value decoding in `key_to_dict`: try `int(v)`, fall back to the string. -/
def pyValOfChars (cs : List Char) : Value :=
  match pyInt? cs with
  | some n => Value.int n
  | Option.none => Value.str (String.mk cs)

/-- `DBTable.key_to_dict`: split on `"%%"`, first half keys, second half
values (int-cast attempted); `ValueError` if the partition is empty or
uneven. -/
def DBTable.key_to_dict (key : String) : Except PyErr Dict :=
  let parts := splitDD key.data
  let keyLength := parts.length / 2
  let dictKeysL := parts.take keyLength
  let dictValuesL := parts.drop keyLength
  if keyLength == 0 ∨ !(dictKeysL.length == dictValuesL.length) then
    Except.error PyErr.valueError
  else
    Except.ok ((dictKeysL.zip dictValuesL).foldl
      (fun acc p => dictSet acc (String.mk p.1) (pyValOfChars p.2)) [])

/- ### Table schema (the result of `DESCRIBE`, as used by the code) -/

/-- The `key` attribute of a column: `'PRI'`, `'UNI'`, or neither. -/
inductive KeyKind where
  | pri : KeyKind
  | uni : KeyKind
  | plain : KeyKind
deriving DecidableEq

/-- One column of `table_structure`: name, key kind, and whether its
`extra` is `auto_increment`. -/
structure Col where
  name : String
  kind : KeyKind
  autoInc : Bool
deriving DecidableEq

/-- A table's structure, in `DESCRIBE` order. -/
structure TableSchema where
  cols : List Col
deriving DecidableEq

/-- `DBManager.table_fields`: the column names. -/
def TableSchema.fields (s : TableSchema) : List String := s.cols.map (fun c => c.name)

/-- `DBManager.primary_key_list`: names of the `'PRI'` columns in order. -/
def TableSchema.pkl (s : TableSchema) : List String :=
  (s.cols.filter (fun c => c.kind == KeyKind.pri)).map (fun c => c.name)

/-- `table_structure[field]['key']`, `none` when the field is not a column
(Python raises `KeyError` there). -/
def TableSchema.keyKind? (s : TableSchema) (f : String) : Option KeyKind :=
  (s.cols.find? (fun c => c.name == f)).map (fun c => c.kind)

/- ### Backend model (the MySQL store behind `DBManager`) -/

/-- Backend model: the table's persisted rows (each with every column
present, `NULL` as `Value.none`) and the `AUTO_INCREMENT` counter. -/
structure Backend where
  rows : List Dict
  nextId : Int
deriving DecidableEq

/-- Python `s.startswith(c)` for a single character. -/
def headIs (s : String) (c : Char) : Bool :=
  match s.data with
  | [] => false
  | c2 :: _ => c2 == c

/-- Python `s.startswith(xy)` for a two-character string. -/
def head2Is (s : String) (c1 c2 : Char) : Bool :=
  match s.data with
  | a :: b :: _ => a == c1 && b == c2
  | _ => false

/-- `DBManager._query_params`: `none` for an empty dict (the Python
function returns `None`, which callers subscript → `TypeError`);
otherwise the entries with non-`None` values, in order. -/
def queryParams (d : Dict) : Option (List (String × Value)) :=
  match d with
  | [] => Option.none
  | _ => some (d.filter (fun p => !(p.2 == Value.none)))

/-- One `WHERE` condition from `DBManager._build_where`, evaluated
against a row value. `none` marks the LIKE / comparison-operator
branches, which this backend model does not evaluate. -/
def whereTest (v : Value) (rowv : Value) : Option Bool :=
  match v with
  | Value.none => some false        -- builds "`col`=NULL", which matches nothing
  | Value.int n => some (rowv == Value.int n)
  | Value.str s =>
    if s == "NULL" then some (rowv == Value.none)
    else if s == "NOT NULL" then some (!(rowv == Value.none))
    else if headIs s '%' then Option.none
    else if headIs s '>' || headIs s '<' || head2Is s '!' '=' then Option.none
    else some (rowv == Value.str s)

/-- Whether a row matches an AND-joined where dict; `error` when a
condition falls outside the modelled fragment. -/
def rowMatchesE (wd : Dict) (r : Dict) : Except PyErr Bool :=
  match wd with
  | [] => Except.ok true
  | p :: rest =>
    match whereTest p.2 (dictGetD r p.1) with
    | Option.none => Except.error PyErr.unmodeledQuery
    | some b =>
      match rowMatchesE rest r with
      | Except.error e => Except.error e
      | Except.ok b2 => Except.ok (b && b2)

/-- Pair each backend row with its match flag. -/
def matchFlags (wd : Dict) : List Dict → Except PyErr (List (Dict × Bool))
  | [] => Except.ok []
  | r :: rs =>
    match rowMatchesE wd r with
    | Except.error e => Except.error e
    | Except.ok m =>
      match matchFlags wd rs with
      | Except.error e => Except.error e
      | Except.ok rest => Except.ok ((r, m) :: rest)

/-- Whether row `r` collides with existing row `e` on the primary key or
on a non-`NULL` unique column (MySQL duplicate-entry condition). -/
def dupAgainst (sch : TableSchema) (r e : Dict) : Bool :=
  (!(sch.pkl.isEmpty) && sch.pkl.all (fun k => dictGetD r k == dictGetD e k))
  || sch.cols.any (fun c =>
       c.kind == KeyKind.uni
       && !(dictGetD r c.name == Value.none)
       && dictGetD r c.name == dictGetD e c.name)

/-- Any uniqueness collision among a list of rows. -/
def anyPairClash (sch : TableSchema) : List Dict → Bool
  | [] => false
  | r :: rs => rs.any (fun e => dupAgainst sch r e) || anyPairClash sch rs

/-- Materialize an inserted row: non-`None` supplied values win (the
`None`s were dropped by `_query_params`), the auto-increment column
defaults to the counter, everything else to `NULL`. Also reports whether
the auto-increment value was generated. -/
def materializeRow (sch : TableSchema) (nextId : Int) (rd : Dict) : Dict × Bool :=
  let eff : Dict := rd.filter (fun p => !(p.2 == Value.none))
  let row : Dict := sch.cols.map (fun c =>
    (c.name,
      match dictGet? eff c.name with
      | some v => v
      | Option.none => if c.autoInc then Value.int nextId else Value.none))
  let usedAuto := sch.cols.any (fun c => c.autoInc && (dictGet? eff c.name).isNone)
  (row, usedAuto)

/-- `DBManager.insert_row`: build `INSERT INTO … (…) VALUES (…)` from
`_query_params` (empty dict → `TypeError`), raise errno 1062 on a
uniqueness collision (statement rolled back), else commit and return
`cursor.lastrowid`, mapped to `-1` when no id was generated. -/
def managerInsertRow (sch : TableSchema) (b : Backend) (rd : Dict) :
    Except PyErr (Int × Backend) :=
  match queryParams rd with
  | Option.none => Except.error PyErr.typeError
  | some _ =>
    let m := materializeRow sch b.nextId rd
    if b.rows.any (fun e => dupAgainst sch m.1 e) then Except.error PyErr.dupEntry
    else
      let lastrowid := if m.2 then b.nextId else -1
      let nextId := if m.2 then b.nextId + 1 else b.nextId
      Except.ok (lastrowid, { rows := b.rows ++ [m.1], nextId := nextId })

/-- Apply the `SET` pairs of an `UPDATE` to one row. -/
def applySets (sets : List (String × Value)) (r : Dict) : Dict :=
  sets.foldl (fun r p => dictSet r p.1 p.2) r

/-- MySQL "affected": at least one assigned column actually changes. -/
def changedRow (sets : List (String × Value)) (r : Dict) : Bool :=
  sets.any (fun p => !(dictGetD r p.1 == p.2))

/-- `DBManager.update_rows`: `_query_params(row_dict)` is `None` for an
empty dict and the code subscripts it (`TypeError`); all-`None` changes
yield the malformed query `UPDATE t SET WHERE …` (a `MySQLdb.Error`,
re-raised); otherwise matching rows are updated and the call returns
`cursor.rowcount > 0`, i.e. whether at least one matched row changed. -/
def managerUpdateRows (sch : TableSchema) (b : Backend) (changes wd : Dict) :
    Except PyErr (Bool × Backend) :=
  match queryParams changes with
  | Option.none => Except.error PyErr.typeError
  | some [] => Except.error PyErr.otherMySqlError
  | some sets =>
    match matchFlags wd b.rows with
    | Except.error e => Except.error e
    | Except.ok flags =>
      if anyPairClash sch (flags.map (fun p => if p.2 then applySets sets p.1 else p.1)) then
        Except.error PyErr.dupEntry
      else
        Except.ok (flags.any (fun p => p.2 && changedRow sets p.1),
          { b with rows := flags.map (fun p => if p.2 then applySets sets p.1 else p.1) })

/-- `DBManager.delete_rows` (AND-joined filter): remove matching rows,
return whether at least one was removed. -/
def managerDeleteRows (b : Backend) (wd : Dict) :
    Except PyErr (Bool × Backend) :=
  match matchFlags wd b.rows with
  | Except.error e => Except.error e
  | Except.ok flags =>
    let kept := (flags.filter (fun p => !p.2)).map (fun p => p.1)
    Except.ok (flags.any (fun p => p.2), { b with rows := kept })

/-- Modelled from the spec: `DBManager.fetch_rows(table, filter, limit,
order_by) -> sequence<Row>`. The manager version present under `src/` is
a stale snapshot without the `order_by` parameter that
`DBTable.fetch_rows` passes; per spec §4.2 the current manager returns
the sequence of matching rows. Modelled here for the only instantiation
the claims exercise: `limit=0`, `order_by=None` (table order). -/
def managerFetchRows (b : Backend) (wd : Dict) : Except PyErr (List Dict) :=
  match matchFlags wd b.rows with
  | Except.error e => Except.error e
  | Except.ok flags => Except.ok ((flags.filter (fun p => p.2)).map (fun p => p.1))

/-- `DBManager.fetch_row`: `cursor.fetchone()` — first matching row or
`None`. -/
def managerFetchRow (b : Backend) (wd : Dict) : Except PyErr (Option Dict) :=
  match matchFlags wd b.rows with
  | Except.error e => Except.error e
  | Except.ok flags =>
    Except.ok (((flags.filter (fun p => p.2)).map (fun p => p.1)).head?)

/- ### The table cache state (`DBTable.__init__` fields) -/

/-- `DBTable.RowStatus`. -/
inductive RowStatus where
  | NEW : RowStatus
  | SYNCED : RowStatus
  | UNSYNCED : RowStatus
  | DELETED : RowStatus
deriving DecidableEq

/-- Row-status dict of the table cache. -/
abbrev StatusDict : Type := List (String × RowStatus)

/-- Lookup in the status dict. -/
def statusGet? (d : StatusDict) (k : String) : Option RowStatus :=
  match d with
  | [] => Option.none
  | p :: rest => if p.1 == k then some p.2 else statusGet? rest k

/-- Assignment in the status dict (overwrite in place or append). -/
def statusSet (d : StatusDict) (k : String) (v : RowStatus) : StatusDict :=
  match d with
  | [] => [(k, v)]
  | p :: rest => if p.1 == k then (k, v) :: rest else p :: statusSet rest k v

/-- Row cache of a table: `row_key → row`. -/
abbrev RowsDict : Type := List (String × Dict)

/-- Lookup in the row cache. -/
def rowsGet? (d : RowsDict) (k : String) : Option Dict :=
  match d with
  | [] => Option.none
  | p :: rest => if p.1 == k then some p.2 else rowsGet? rest k

/-- Assignment in the row cache. -/
def rowsSet (d : RowsDict) (k : String) (v : Dict) : RowsDict :=
  match d with
  | [] => [(k, v)]
  | p :: rest => if p.1 == k then (k, v) :: rest else p :: rowsSet rest k v

/-- `del self.rows[k]`: `KeyError` when absent. -/
def rowsDel (d : RowsDict) (k : String) : Except PyErr RowsDict :=
  match d with
  | [] => Except.error PyErr.keyError
  | p :: rest =>
    if p.1 == k then Except.ok rest
    else
      match rowsDel rest k with
      | Except.error e => Except.error e
      | Except.ok rest2 => Except.ok (p :: rest2)

/-- The mutable state of one `DBTable`: `self.rows`, `self.row_status`,
`self.next_key`. -/
structure TState where
  rows : RowsDict
  row_status : StatusDict
  next_key : Nat
deriving DecidableEq

/-- Whole state: table cache plus backend store. -/
structure St where
  table : TState
  backend : Backend
deriving DecidableEq

/-- `DBTable.NEW_ID_PREFIX`. -/
def newIdStr : String := "db_table_new"

/- ### DBTable operations -/

/-- `DBTable.fetch_rows` (with the defaults the code under test uses:
`limit=0`, `order_by=None`, `overwrite=True`): fetch matching rows from
the manager, compute each row's key from its primary-key projection,
cache every row as `SYNCED`, and return the fetched dict. -/
def DBTable.fetch_rows (sch : TableSchema) (wd : Dict) (st : St) :
    Except PyErr (List (String × Dict)) × St :=
  match managerFetchRows st.backend wd with
  | Except.error e => (Except.error e, st)
  | Except.ok rows =>
    let pks := sch.pkl
    let step := fun (acc : List (String × Dict) × St) (row : Dict) =>
      let keyStr := DBTable.dict_to_key (pks.map (fun k => (k, dictGetD row k)))
      ((acc.1.filter (fun p => !(p.1 == keyStr))) ++ [(keyStr, row)],
        { acc.2 with table :=
          { acc.2.table with
            rows := rowsSet acc.2.table.rows keyStr row,
            row_status := statusSet acc.2.table.row_status keyStr RowStatus.SYNCED } })
    let out := rows.foldl step ([], st)
    (Except.ok out.1, out.2)

/-- `DBTable.get_row_by_key`: cache hit, else fetch by the decoded key
and cache the row. (The source also caches a fetch miss as a `None`
entry; the model, whose cache holds rows only, simply does not cache the
miss — indistinguishable for every operation modelled here.) -/
def DBTable.get_row_by_key (k : String) (st : St) :
    Except PyErr (Option Dict) × St :=
  match rowsGet? st.table.rows k with
  | some r => (Except.ok (some r), st)
  | Option.none =>
    match DBTable.key_to_dict k with
    | Except.error e => (Except.error e, st)
    | Except.ok kd =>
      match managerFetchRow st.backend kd with
      | Except.error e => (Except.error e, st)
      | Except.ok Option.none => (Except.ok Option.none, st)
      | Except.ok (some row) =>
        (Except.ok (some row),
          { st with table := { st.table with rows := rowsSet st.table.rows k row } })

/-- `DBTable.set_field`: `ValueError` when the key is not cached; writes
the field and moves a `SYNCED` row to `UNSYNCED` (any other status is
left as it is). -/
def DBTable.set_field (k f : String) (v : Value) (st : St) :
    Except PyErr Unit × St :=
  match rowsGet? st.table.rows k with
  | Option.none => (Except.error PyErr.valueError, st)
  | some row =>
    let st1 := { st with table :=
      { st.table with rows := rowsSet st.table.rows k (dictSet row f v) } }
    match statusGet? st1.table.row_status k with
    | Option.none => (Except.error PyErr.keyError, st1)
    | some s =>
      if s == RowStatus.SYNCED then
        (Except.ok (),
          { st1 with table :=
            { st1.table with
              row_status := statusSet st1.table.row_status k RowStatus.UNSYNCED } })
      else (Except.ok (), st1)

/-- `DBTable.update_row`: decode the key and delegate to
`DBManager.update_rows`. -/
def DBTable.update_row (sch : TableSchema) (k : String) (rd : Dict) (st : St) :
    Except PyErr Bool × St :=
  match DBTable.key_to_dict k with
  | Except.error e => (Except.error e, st)
  | Except.ok kd =>
    match managerUpdateRows sch st.backend rd kd with
    | Except.error e => (Except.error e, st)
    | Except.ok (b, be) => (Except.ok b, { st with backend := be })

/-- `DBTable.delete_row`: mark the status `DELETED` (the cached row
itself is kept), then decode the key and issue the backend delete. -/
def DBTable.delete_row (k : String) (st : St) :
    Except PyErr Bool × St :=
  let st1 := { st with table :=
    { st.table with row_status := statusSet st.table.row_status k RowStatus.DELETED } }
  match DBTable.key_to_dict k with
  | Except.error e => (Except.error e, st1)
  | Except.ok kd =>
    match managerDeleteRows st1.backend kd with
    | Except.error e => (Except.error e, st1)
    | Except.ok (b, be) => (Except.ok b, { st1 with backend := be })

/-- `DBTable.create_new_row`: mint the temporary key, increment
`next_key`, then validate `fields_dict` (`ValueError` on a field outside
the schema — raised after the increment, before any cache write). -/
def DBTable.create_new_row (sch : TableSchema) (fieldsDict : Option Dict) (st : St) :
    Except PyErr String × St :=
  let rowKey := newIdStr ++ "%%" ++ pyNatStr st.table.next_key
  let st1 := { st with table := { st.table with next_key := st.table.next_key + 1 } }
  match fieldsDict with
  | Option.none =>
    (Except.ok rowKey,
      { st1 with table :=
        { st1.table with
          rows := rowsSet st1.table.rows rowKey
            (sch.fields.map (fun f => (f, Value.none))),
          row_status := statusSet st1.table.row_status rowKey RowStatus.NEW } })
  | some fd =>
    if fd.all (fun p => sch.fields.contains p.1) then
      (Except.ok rowKey,
        { st1 with table :=
          { st1.table with
            rows := rowsSet st1.table.rows rowKey
              (sch.fields.map (fun f => (f, dictGetD fd f))),
            row_status := statusSet st1.table.row_status rowKey RowStatus.NEW } })
    else (Except.error PyErr.valueError, st1)

/-- `DBTable.Duplicates`. -/
inductive Duplicates where
  | SKIP : Duplicates
  | INSERT : Duplicates
  | OVERWRITE : Duplicates
  | REPLACE : Duplicates
deriving DecidableEq

/-- The scan over `row_dict` in the duplicate branch of
`DBTable.insert_row`: falsy values are skipped, then
`table_structure[key]['key']` (`KeyError` when the field is unknown)
sorts truthy values into `pkey_dict` and `unique_dict_list`. -/
def scanKeys (sch : TableSchema) (acc : Dict × List Dict) :
    List (String × Value) → Except PyErr (Dict × List Dict)
  | [] => Except.ok acc
  | p :: rest =>
    if !(Value.truthy p.2) then scanKeys sch acc rest
    else
      match sch.keyKind? p.1 with
      | Option.none => Except.error PyErr.keyError
      | some KeyKind.pri => scanKeys sch (dictSet acc.1 p.1 p.2, acc.2) rest
      | some KeyKind.uni => scanKeys sch (acc.1, acc.2.concat ([(p.1, p.2)] : Dict)) rest
      | some KeyKind.plain => scanKeys sch acc rest

/-- The fallback loop over `unique_dict_list`: fetch on each unique
column in turn until a non-empty result. -/
def tryUniques (sch : TableSchema) :
    List Dict → St → Except PyErr (List (String × Dict)) × St
  | [], st => (Except.ok [], st)
  | wd :: rest, st =>
    match DBTable.fetch_rows sch wd st with
    | (Except.error e, st1) => (Except.error e, st1)
    | (Except.ok rows, st1) =>
      if rows.isEmpty then tryUniques sch rest st1 else (Except.ok rows, st1)

/-- The `INSERT`-policy filter: keep a field iff its new value is truthy
and the existing row's value is falsy (`old_row[key]` is a strict
subscript, but is short-circuited away for falsy new values). -/
def insFilter (old : Dict) : List (String × Value) → Except PyErr Dict
  | [] => Except.ok []
  | p :: rest =>
    if !(Value.truthy p.2) then insFilter old rest
    else
      match dictGet? old p.1 with
      | Option.none => Except.error PyErr.keyError
      | some ov =>
        if Value.truthy ov then insFilter old rest
        else
          match insFilter old rest with
          | Except.error e => Except.error e
          | Except.ok d => Except.ok (p :: d)

/-- The primary-key subset `{key: row_dict[key] for key in pkl}` built
in the no-auto-increment branch of `insert_row` (`KeyError` when a
primary-key column is missing from `row_dict`). -/
def pkSubsetOf (rd : Dict) : List String → Except PyErr Dict
  | [] => Except.ok []
  | k :: ks =>
    match dictGet? rd k with
    | Option.none => Except.error PyErr.keyError
    | some v =>
      match pkSubsetOf rd ks with
      | Except.error e => Except.error e
      | Except.ok d => Except.ok ((k, v) :: d)

/-- The shared tail of the `OVERWRITE`/`INSERT` branches: run
`update_row`; on `True`, mark the existing key `SYNCED` and copy the
written fields into the cached row (a strict subscript); return the
existing key and the (mutated) `row_dict`. -/
def applyPolicyUpdate (sch : TableSchema) (dk : String) (rd2 : Dict) (st : St) :
    Except PyErr (String × Dict) × St :=
  match DBTable.update_row sch dk rd2 st with
  | (Except.error e, st1) => (Except.error e, st1)
  | (Except.ok false, st1) => (Except.ok (dk, rd2), st1)
  | (Except.ok true, st1) =>
    let st2 := { st1 with table :=
      { st1.table with row_status := statusSet st1.table.row_status dk RowStatus.SYNCED } }
    match rowsGet? st2.table.rows dk with
    | Option.none => (Except.error PyErr.keyError, st2)
    | some cached =>
      (Except.ok (dk, rd2),
        { st2 with table :=
          { st2.table with
            rows := rowsSet st2.table.rows dk
              (rd2.foldl (fun r p => dictSet r p.1 p.2) cached) } })

/-- `DBTable.insert_row`: attempt the backend insert; on success compute
the new row key (auto-increment id, else primary-key subset of
`row_dict`) and cache the row `SYNCED`; on a duplicate-entry signal,
locate the existing row (primary-key columns first, then each unique
column) and apply the duplicates policy. `fuel` bounds the `REPLACE`
recursion (Python's recursion limit). -/
def DBTable.insert_row (sch : TableSchema) :
    Nat → Dict → Duplicates → St → Except PyErr (String × Dict) × St
  | fuel, rd, dup, st =>
    match managerInsertRow sch st.backend rd with
    | Except.error PyErr.dupEntry =>
      -- duplicate branch
      match scanKeys sch ([], []) rd with
      | Except.error e => (Except.error e, st)
      | Except.ok (pkeyDict, uniqueList) =>
        let fetched :=
          if pkeyDict.isEmpty then (Except.ok ([] : List (String × Dict)), st)
          else DBTable.fetch_rows sch pkeyDict st
        match fetched with
        | (Except.error e, st1) => (Except.error e, st1)
        | (Except.ok firstTry, st1) =>
          let second :=
            if firstTry.isEmpty then tryUniques sch uniqueList st1
            else (Except.ok firstTry, st1)
          match second with
          | (Except.error e, st2) => (Except.error e, st2)
          | (Except.ok oldRow, st2) =>
            if oldRow.isEmpty then (Except.error PyErr.dbIntegrityError, st2)
            else if !(oldRow.length == 1) then (Except.error PyErr.dbIntegrityError, st2)
            else
              match oldRow.head? with
              | Option.none => (Except.error PyErr.dbIntegrityError, st2)
              | some hd =>
                let dk := hd.1
                match dup with
                | Duplicates.SKIP => (Except.ok (dk, rd), st2)
                | Duplicates.REPLACE =>
                  match DBTable.delete_row dk st2 with
                  | (Except.error e, st3) => (Except.error e, st3)
                  | (Except.ok _, st3) =>
                    match fuel with
                    | 0 => (Except.error PyErr.recursionDepth, st3)
                    | Nat.succ f => DBTable.insert_row sch f rd Duplicates.REPLACE st3
                | Duplicates.OVERWRITE =>
                  applyPolicyUpdate sch dk (rd.filter (fun p => Value.truthy p.2)) st2
                | Duplicates.INSERT =>
                  match DBTable.get_row_by_key dk st2 with
                  | (Except.error e, st3) => (Except.error e, st3)
                  | (Except.ok Option.none, st3) => (Except.error PyErr.typeError, st3)
                  | (Except.ok (some old), st3) =>
                    match insFilter old rd with
                    | Except.error e => (Except.error e, st3)
                    | Except.ok rd2 => applyPolicyUpdate sch dk rd2 st3
    | Except.error e => (Except.error e, st)
    | Except.ok (newPriKey, be) =>
      -- no duplicate entry
      let st1 := { st with backend := be }
      let finish := fun (newRowKey : String) (rd2 : Dict) (st2 : St) =>
        (Except.ok (newRowKey, rd2),
          { st2 with table :=
            { st2.table with
              rows := rowsSet st2.table.rows newRowKey
                (sch.fields.map (fun f => (f, dictGetD rd2 f))),
              row_status := statusSet st2.table.row_status newRowKey RowStatus.SYNCED } })
      match sch.pkl with
      | [p] =>
        if newPriKey > 0 then
          finish (DBTable.dict_to_key [(p, Value.int newPriKey)])
            (dictSet rd p (Value.int newPriKey)) st1
        else if newPriKey == -1 then
          match dictGet? rd p with
          | Option.none => (Except.error PyErr.keyError, st1)
          | some v => finish (DBTable.dict_to_key [(p, v)]) rd st1
        else (Except.error PyErr.biblioException, st1)
      | pks =>
        if newPriKey == -1 then
          match pkSubsetOf rd pks with
          | Except.error e => (Except.error e, st1)
          | Except.ok kd => finish (DBTable.dict_to_key kd) rd st1
        else (Except.error PyErr.biblioException, st1)

/-- The loop body of `DBTable.sync_to_db` over the snapshot of cached
keys. A `DELETED` row triggers `break` (ending the whole loop); a `NEW`
row is inserted (default policy), its new key marked `SYNCED` and its
temporary key removed from `self.rows` (but not from `row_status`); an
`UNSYNCED` row is updated in place (a failed update raises
`BiblioException`); a `SYNCED` row is untouched. -/
def syncLoop (sch : TableSchema) (fuel : Nat) :
    List String → Option String → St → Except PyErr (Option String) × St
  | [], acc, st => (Except.ok acc, st)
  | k :: ks, acc, st =>
    match rowsGet? st.table.rows k with
    | Option.none => (Except.error PyErr.keyError, st)
    | some rowd =>
      match statusGet? st.table.row_status k with
      | Option.none => (Except.error PyErr.keyError, st)
      | some RowStatus.DELETED => (Except.ok acc, st)
      | some RowStatus.NEW =>
        match DBTable.insert_row sch fuel rowd Duplicates.SKIP st with
        | (Except.error e, st1) => (Except.error e, st1)
        | (Except.ok (nk, _), st1) =>
          let st2 := { st1 with table :=
            { st1.table with
              row_status := statusSet st1.table.row_status nk RowStatus.SYNCED } }
          match rowsDel st2.table.rows k with
          | Except.error e => (Except.error e, st2)
          | Except.ok rows2 =>
            syncLoop sch fuel ks (some nk)
              { st2 with table := { st2.table with rows := rows2 } }
      | some RowStatus.UNSYNCED =>
        match DBTable.key_to_dict k with
        | Except.error e => (Except.error e, st)
        | Except.ok kd =>
          match managerUpdateRows sch st.backend rowd kd with
          | Except.error e => (Except.error e, st)
          | Except.ok (false, be) =>
            (Except.error PyErr.biblioException, { st with backend := be })
          | Except.ok (true, be) =>
            syncLoop sch fuel ks acc
              { st with
                backend := be,
                table := { st.table with
                  row_status := statusSet st.table.row_status k RowStatus.SYNCED } }
      | some RowStatus.SYNCED => syncLoop sch fuel ks acc st

/-- `DBTable.sync_to_db`: run the loop over `list(self.rows.keys())`,
returning the key of the last newly inserted row. -/
def DBTable.sync_to_db (sch : TableSchema) (fuel : Nat) (st : St) :
    Except PyErr (Option String) × St :=
  syncLoop sch fuel (st.table.rows.map (fun p => p.1)) Option.none st

/- ### DBEntity operations -/

/-- `DBEntity.get_field`: `get_row_by_key(row_key).get(field)`;
subscripting the `None` of a failed fetch is an `AttributeError`. -/
def DBEntity.get_field (k attr : String) (st : St) : Except PyErr Value × St :=
  match DBTable.get_row_by_key k st with
  | (Except.error e, st1) => (Except.error e, st1)
  | (Except.ok Option.none, st1) => (Except.error PyErr.attributeError, st1)
  | (Except.ok (some row), st1) => (Except.ok (dictGetD row attr), st1)

/-- `DBEntity.set_field`: `ValueError` when the field is not a schema
column, else delegate to the table. -/
def DBEntity.set_field (sch : TableSchema) (k attr : String) (v : Value) (st : St) :
    Except PyErr Unit × St :=
  if sch.fields.contains attr then DBTable.set_field k attr v st
  else (Except.error PyErr.valueError, st)

/-- `DBEntity.__setattr__` for a schema field: with `protect_fields`
set, a field currently holding a non-`None` value is silently left
unchanged; otherwise the write goes through `set_field`. (Assignment to
a non-field name sets an ordinary instance attribute — outside the row
model, a no-op here.) -/
def DBEntity.setattr (sch : TableSchema) (protectFields : Bool)
    (k attr : String) (v : Value) (st : St) : Except PyErr Unit × St :=
  if sch.fields.contains attr then
    if protectFields then
      match DBEntity.get_field k attr st with
      | (Except.error e, st1) => (Except.error e, st1)
      | (Except.ok cur, st1) =>
        if !(cur == Value.none) then (Except.ok (), st1)
        else DBEntity.set_field sch k attr v st1
    else DBEntity.set_field sch k attr v st
  else (Except.ok (), st)

/-- `DBEntity.delete_from_db`: `DBUnsyncedError` when the row's status
is `NEW` (nothing persisted to delete); any other status proceeds to
`DBTable.delete_row`. -/
def DBEntity.delete_from_db (k : String) (st : St) :
    Except PyErr Bool × St :=
  match statusGet? st.table.row_status k with
  | Option.none => (Except.error PyErr.keyError, st)
  | some RowStatus.NEW => (Except.error PyErr.dbUnsyncedError, st)
  | some _ => DBTable.delete_row k st

/- ### Shared fixtures and helper lemmas -/

instance {ε α : Type} [DecidableEq ε] [DecidableEq α] : DecidableEq (Except ε α)
  | Except.ok a, Except.ok b =>
    if h : a = b then isTrue (by rw [h]) else isFalse (by intro hc; cases hc; exact h rfl)
  | Except.error a, Except.error b =>
    if h : a = b then isTrue (by rw [h]) else isFalse (by intro hc; cases hc; exact h rfl)
  | Except.ok _, Except.error _ => isFalse (by intro hc; cases hc)
  | Except.error _, Except.ok _ => isFalse (by intro hc; cases hc)

/-- Fixture: a table with an auto-increment primary key `id`, a unique
column `u` and a plain column `c` (the shape of the `author`-style tables
the tests exercise). -/
def schA : TableSchema :=
  ⟨[⟨"id", KeyKind.pri, true⟩, ⟨"u", KeyKind.uni, false⟩, ⟨"c", KeyKind.plain, false⟩]⟩

/-- Fixture: like `schA` but with two plain columns `a`, `b`. -/
def schB : TableSchema :=
  ⟨[⟨"id", KeyKind.pri, true⟩, ⟨"u", KeyKind.uni, false⟩,
    ⟨"a", KeyKind.plain, false⟩, ⟨"b", KeyKind.plain, false⟩]⟩

/-- Fixture: empty cache over an empty backend. -/
def stEmpty : St := ⟨⟨[], [], 0⟩, ⟨[], 1⟩⟩

/-- A string literal that `_build_where` treats as a plain equality
match: non-empty, not the NULL sentinels, and not a wildcard or
comparison prefix. -/
def plainLit (s : String) : Prop :=
  s ≠ "" ∧ s ≠ "NULL" ∧ s ≠ "NOT NULL" ∧ headIs s '%' = false
    ∧ headIs s '>' = false ∧ headIs s '<' = false ∧ head2Is s '!' '=' = false

instance (s : String) : Decidable (plainLit s) := by
  unfold plainLit; infer_instance

/- ### C1 -/

/-- C1 fixture: a cache holding a `DELETED` row (already removed from
the backend at delete time) followed by a `NEW` row. -/
def c1State : St :=
  ⟨⟨[("id%%1", [("id", Value.int 1), ("u", Value.str "x"), ("c", Value.none)]),
     ("db_table_new%%0", [("id", Value.none), ("u", Value.str "y"), ("c", Value.none)])],
    [("id%%1", RowStatus.DELETED), ("db_table_new%%0", RowStatus.NEW)], 1⟩,
   ⟨[], 2⟩⟩

/-- C1: claimed — after `sync_to_db`, every row remaining in the cache
is `SYNCED` (or gone). In the code the `DELETED` check executes `break`,
not `continue`, so the loop stops at the first `DELETED` row: here the
call returns without touching anything, the `NEW` row is never inserted
and stays cached with status `NEW`, and the `DELETED` row also remains
cached. -/
theorem c1_sync_to_db_break_leaves_new_row :
    DBTable.sync_to_db schA 3 c1State = (Except.ok Option.none, c1State)
    ∧ rowsGet? c1State.table.rows "db_table_new%%0"
        = some [("id", Value.none), ("u", Value.str "y"), ("c", Value.none)]
    ∧ statusGet? c1State.table.row_status "db_table_new%%0" = some RowStatus.NEW
    ∧ statusGet? c1State.table.row_status "id%%1" = some RowStatus.DELETED := by
  refine ⟨rfl, rfl, rfl, rfl⟩

/- ### C6 -/

/-- C6 fixture: a cache whose only row is `DELETED`. -/
def c6State : St :=
  ⟨⟨[("id%%1", [("id", Value.int 1), ("u", Value.str "x"), ("c", Value.none)])],
    [("id%%1", RowStatus.DELETED)], 0⟩, ⟨[], 2⟩⟩

/-- C6 counterexample: the claim says mutation of a `DELETED` row is
rejected, but `set_field` on the deleted row succeeds (no exception) and
overwrites the cached value. -/
theorem c6_set_field_on_deleted_accepted :
    DBTable.set_field "id%%1" "u" (Value.str "zz") c6State
      = (Except.ok (),
         ⟨⟨[("id%%1", [("id", Value.int 1), ("u", Value.str "zz"), ("c", Value.none)])],
           [("id%%1", RowStatus.DELETED)], 0⟩, ⟨[], 2⟩⟩) := by
  rfl

/-- C6 (amended): `set_field` on a `DELETED` row is accepted: it mutates
the cached row in place and leaves the status `DELETED` (only a `SYNCED`
row transitions on mutation). -/
theorem c6_amended_set_field_deleted (st : St) (k f : String) (v : Value) (row : Dict)
    (h1 : rowsGet? st.table.rows k = some row)
    (h2 : statusGet? st.table.row_status k = some RowStatus.DELETED) :
    DBTable.set_field k f v st
      = (Except.ok (),
         { st with table := { st.table with rows := rowsSet st.table.rows k (dictSet row f v) } }) := by
  unfold DBTable.set_field
  rw [h1]
  simp only [h2]
  rfl

/-- C6 witness. -/
theorem c6_amended_set_field_deleted_witness :
    DBTable.set_field "id%%1" "u" (Value.str "zz") c6State
      = (Except.ok (),
         { c6State with table := { c6State.table with
            rows := rowsSet c6State.table.rows "id%%1"
              (dictSet [("id", Value.int 1), ("u", Value.str "x"), ("c", Value.none)]
                "u" (Value.str "zz")) } }) :=
  c6_amended_set_field_deleted c6State "id%%1" "u" (Value.str "zz")
    [("id", Value.int 1), ("u", Value.str "x"), ("c", Value.none)] rfl rfl

/- ### C7 -/

/-- C7 fixture: a persisted row cached with local modifications
(`UNSYNCED`). -/
def c7State : St :=
  ⟨⟨[("id%%1", [("id", Value.int 1), ("u", Value.str "x"), ("c", Value.none)])],
    [("id%%1", RowStatus.UNSYNCED)], 0⟩,
   ⟨[[("id", Value.int 1), ("u", Value.str "x"), ("c", Value.none)]], 2⟩⟩

/-- C7 counterexample: the claim says delete succeeds only on a `SYNCED`
row, but deleting this `UNSYNCED` row raises nothing: it marks the row
`DELETED` and the backend delete removes the persisted row. -/
theorem c7_delete_unsynced_succeeds :
    DBEntity.delete_from_db "id%%1" c7State
      = (Except.ok true,
         ⟨⟨[("id%%1", [("id", Value.int 1), ("u", Value.str "x"), ("c", Value.none)])],
           [("id%%1", RowStatus.DELETED)], 0⟩, ⟨[], 2⟩⟩) := by
  rfl

/-- C7 (amended): `DBEntity.delete_from_db` raises `DBUnsyncedError`
exactly when the row's status is `NEW` (leaving all state, in particular
the backend, untouched); for every other status it proceeds to
`DBTable.delete_row`, which marks the row `DELETED` and issues the
backend delete. -/
theorem c7_amended_delete_requires_not_new (st : St) (k : String) (s : RowStatus)
    (h : statusGet? st.table.row_status k = some s) :
    (s = RowStatus.NEW → DBEntity.delete_from_db k st = (Except.error PyErr.dbUnsyncedError, st))
    ∧ (s ≠ RowStatus.NEW → DBEntity.delete_from_db k st = DBTable.delete_row k st) := by
  unfold DBEntity.delete_from_db
  rw [h]
  cases s
  case NEW => exact ⟨fun _ => rfl, fun hne => absurd rfl hne⟩
  case SYNCED => exact ⟨fun hc => RowStatus.noConfusion hc, fun _ => rfl⟩
  case UNSYNCED => exact ⟨fun hc => RowStatus.noConfusion hc, fun _ => rfl⟩
  case DELETED => exact ⟨fun hc => RowStatus.noConfusion hc, fun _ => rfl⟩

/-- C7 witness. -/
theorem c7_amended_delete_requires_not_new_witness :
    (RowStatus.UNSYNCED = RowStatus.NEW →
      DBEntity.delete_from_db "id%%1" c7State = (Except.error PyErr.dbUnsyncedError, c7State))
    ∧ (RowStatus.UNSYNCED ≠ RowStatus.NEW →
      DBEntity.delete_from_db "id%%1" c7State = DBTable.delete_row "id%%1" c7State) :=
  c7_amended_delete_requires_not_new c7State "id%%1" RowStatus.UNSYNCED rfl

/- ### Digit lemmas (str / int round-trip) -/

theorem digitChar_isDigit (d : Nat) : (digitChar d).isDigit = true := by
  unfold digitChar
  split <;> decide

theorem ne_of_isDigit (c x : Char) (h : c.isDigit = true) (hx : x.isDigit = false) :
    c ≠ x := by
  intro he
  rw [he, hx] at h
  cases h

theorem charVal_digitChar (d : Nat) (h : d < 10) : charVal (digitChar d) = d := by
  interval_cases d <;> decide

theorem natDigitsF_stable :
    ∀ (f1 f2 m : Nat), m < f1 → m < f2 → natDigitsF f1 m = natDigitsF f2 m
  | 0, _, _, h1, _ => by omega
  | _ + 1, 0, _, _, h2 => by omega
  | f1 + 1, f2 + 1, m, h1, h2 => by
    unfold natDigitsF
    by_cases hm : m < 10
    · rw [if_pos hm, if_pos hm]
    · rw [if_neg hm, if_neg hm]
      have hd : m / 10 < m := Nat.div_lt_self (by omega) (by omega)
      rw [natDigitsF_stable f1 f2 (m / 10) (by omega) (by omega)]

theorem natDigits_unfold (m : Nat) :
    natDigits m = if m < 10 then [digitChar m]
      else natDigits (m / 10) ++ [digitChar (m % 10)] := by
  show natDigitsF (m + 1) m = _
  unfold natDigitsF
  by_cases hm : m < 10
  · rw [if_pos hm, if_pos hm]
  · rw [if_neg hm, if_neg hm]
    have hd : m / 10 < m := Nat.div_lt_self (by omega) (by omega)
    rw [natDigitsF_stable m (m / 10 + 1) (m / 10) (by omega) (by omega)]
    rfl

theorem natDigits_ne_nil (m : Nat) : natDigits m ≠ [] := by
  rw [natDigits_unfold]
  split <;> simp

theorem natDigits_digits (m : Nat) : ∀ c ∈ natDigits m, c.isDigit = true := by
  induction m using Nat.strong_induction_on with
  | _ m ih =>
    rw [natDigits_unfold]
    split
    · intro c hc
      rw [List.mem_singleton] at hc
      rw [hc]
      exact digitChar_isDigit _
    · intro c hc
      rcases List.mem_append.mp hc with h1 | h2
      · exact ih (m / 10) (Nat.div_lt_self (by omega) (by omega)) c h1
      · rw [List.mem_singleton] at h2
        rw [h2]
        exact digitChar_isDigit _

/-- Accumulate a digit run. -/
def digitsFold (acc : Nat) (cs : List Char) : Nat :=
  cs.foldl (fun a c => a * 10 + charVal c) acc

theorem digitsValAux_all_digits :
    ∀ (cs : List Char) (acc : Nat), (∀ c ∈ cs, c.isDigit = true) →
      digitsValAux acc cs = some (digitsFold acc cs)
  | [], acc, _ => rfl
  | c :: cs, acc, h => by
    have hc : c.isDigit = true := h c (List.mem_cons_self c cs)
    unfold digitsValAux
    rw [if_neg (ne_of_isDigit c '_' hc (by decide)), if_pos hc]
    exact digitsValAux_all_digits cs _ (fun x hx => h x (List.mem_cons_of_mem c hx))

theorem digitsFold_natDigits (m : Nat) :
    ∀ acc, digitsFold acc (natDigits m) = acc * 10 ^ (natDigits m).length + m := by
  induction m using Nat.strong_induction_on with
  | _ m ih =>
    intro acc
    rw [natDigits_unfold]
    split
    case isTrue h =>
      show digitsFold acc [digitChar m] = acc * 10 ^ ([digitChar m]).length + m
      unfold digitsFold
      simp [List.foldl, charVal_digitChar m h]
    case isFalse h =>
      have hlt : m / 10 < m := Nat.div_lt_self (by omega) (by omega)
      unfold digitsFold
      rw [List.foldl_append]
      have hrec := ih (m / 10) hlt acc
      unfold digitsFold at hrec
      rw [hrec]
      simp only [List.foldl, List.length_append, List.length_singleton]
      rw [charVal_digitChar (m % 10) (Nat.mod_lt _ (by omega))]
      have hm : 10 * (m / 10) + m % 10 = m := Nat.div_add_mod m 10
      rw [pow_succ]
      ring_nf
      omega

theorem digitsVal_natDigits (m : Nat) : digitsVal (natDigits m) = some m := by
  cases hnd : natDigits m with
  | nil => exact absurd hnd (natDigits_ne_nil m)
  | cons c cs =>
    have hall := natDigits_digits m
    rw [hnd] at hall
    have hc : c.isDigit = true := hall c (List.mem_cons_self c cs)
    simp only [digitsVal]
    rw [if_pos hc]
    rw [digitsValAux_all_digits cs (charVal c) (fun x hx => hall x (List.mem_cons_of_mem c hx))]
    have : digitsFold (charVal c) cs = digitsFold 0 (c :: cs) := by
      unfold digitsFold
      simp [List.foldl]
    rw [this, ← hnd, digitsFold_natDigits m 0]
    simp

theorem natDigits_inj (a b : Nat) (h : natDigits a = natDigits b) : a = b := by
  have ha := digitsVal_natDigits a
  have hb := digitsVal_natDigits b
  rw [h, hb] at ha
  cases ha
  rfl

theorem pyNatStr_inj (a b : Nat) (h : pyNatStr a = pyNatStr b) : a = b := by
  unfold pyNatStr at h
  exact natDigits_inj a b (congrArg String.data h)

/- ### C10 -/

/-- The temporary key `create_new_row` mints for counter value `n`. -/
def tempKeyStr (n : Nat) : String := newIdStr ++ "%%" ++ pyNatStr n

theorem tempKeyStr_inj (a b : Nat) (h : tempKeyStr a = tempKeyStr b) : a = b := by
  unfold tempKeyStr at h
  have hd := congrArg String.data h
  simp only [String.data_append] at hd
  rw [List.append_assoc, List.append_assoc] at hd
  have := List.append_cancel_left hd
  have := List.append_cancel_left this
  exact natDigits_inj a b this

/-- Every `create_new_row` call increments the counter, and a successful
call returns the temporary key of the pre-call counter. -/
theorem create_new_row_next (sch : TableSchema) (fd : Option Dict) (st : St) :
    (DBTable.create_new_row sch fd st).2.table.next_key = st.table.next_key + 1
    ∧ ∀ k st2, DBTable.create_new_row sch fd st = (Except.ok k, st2) →
        k = tempKeyStr st.table.next_key := by
  cases fd with
  | none =>
    refine ⟨rfl, fun k st2 h => ?_⟩
    simp only [DBTable.create_new_row, Prod.mk.injEq, Except.ok.injEq] at h
    exact h.1.symm
  | some fd =>
    constructor
    · simp only [DBTable.create_new_row]
      split <;> rfl
    · intro k st2 h
      simp only [DBTable.create_new_row] at h
      split at h
      · simp only [Prod.mk.injEq, Except.ok.injEq] at h
        exact h.1.symm
      · simp only [Prod.mk.injEq] at h
        exact absurd h.1 (by simp)

/-- The keys returned by a sequence of later `create_new_row` calls. -/
def createRunKeys (sch : TableSchema) : List (Option Dict) → St → List String
  | [], _ => []
  | fd :: rest, st =>
    match DBTable.create_new_row sch fd st with
    | (Except.ok k, st1) => k :: createRunKeys sch rest st1
    | (Except.error _, st1) => createRunKeys sch rest st1

theorem createRunKeys_not_mem (sch : TableSchema) :
    ∀ (calls : List (Option Dict)) (st : St) (n : Nat),
      n < st.table.next_key → tempKeyStr n ∉ createRunKeys sch calls st
  | [], _, _, _ => by simp [createRunKeys]
  | fd :: rest, st, n, hn => by
    unfold createRunKeys
    have hnext := create_new_row_next sch fd st
    split
    case _ k st1 heq =>
      intro hmem
      rcases List.mem_cons.mp hmem with h1 | h2
      · have hk := hnext.2 k st1 heq
        rw [hk] at h1
        have := tempKeyStr_inj n st.table.next_key h1
        omega
      · have hst1 : st1.table.next_key = st.table.next_key + 1 := by
          have := hnext.1
          rw [heq] at this
          exact this
        exact createRunKeys_not_mem sch rest st1 n (by omega) h2
    case _ e st1 heq =>
      have hst1 : st1.table.next_key = st.table.next_key + 1 := by
        have := hnext.1
        rw [heq] at this
        exact this
      exact createRunKeys_not_mem sch rest st1 n (by omega)

/-- C10: `create_new_row` with a `fields_dict` key outside the schema
raises `ValueError`; the row cache and status map are untouched but the
temporary-key counter has already been incremented, and the skipped
temporary key is never returned by any later `create_new_row`. -/
theorem c10_create_new_row_bad_field (sch : TableSchema) (st : St) (fd : Dict)
    (h : fd.all (fun p => sch.fields.contains p.1) = false) :
    DBTable.create_new_row sch (some fd) st
      = (Except.error PyErr.valueError,
         { st with table := { st.table with next_key := st.table.next_key + 1 } })
    ∧ ∀ calls : List (Option Dict),
        tempKeyStr st.table.next_key ∉
          createRunKeys sch calls
            { st with table := { st.table with next_key := st.table.next_key + 1 } } := by
  constructor
  · simp only [DBTable.create_new_row]
    rw [h]
    rfl
  · intro calls
    exact createRunKeys_not_mem sch calls _ st.table.next_key (by simp)

/-- C10 witness. -/
theorem c10_create_new_row_bad_field_witness :
    DBTable.create_new_row schA (some [("bogus", Value.str "v")]) stEmpty
      = (Except.error PyErr.valueError,
         { stEmpty with table := { stEmpty.table with next_key := stEmpty.table.next_key + 1 } })
    ∧ tempKeyStr stEmpty.table.next_key ∉
        createRunKeys schA [Option.none, some [("u", Value.str "q")]]
          { stEmpty with table := { stEmpty.table with next_key := stEmpty.table.next_key + 1 } } :=
  ⟨(c10_create_new_row_bad_field schA stEmpty [("bogus", Value.str "v")] (by decide)).1,
   (c10_create_new_row_bad_field schA stEmpty [("bogus", Value.str "v")] (by decide)).2
     [Option.none, some [("u", Value.str "q")]]⟩

/- ### C8 -/

/-- C8 fixture: a backend holding one row. -/
def c8Backend : Backend :=
  ⟨[[("id", Value.int 1), ("u", Value.str "x"), ("c", Value.none)]], 2⟩

/-- C8 counterexample: the claim says `update_rows` with an empty
changes mapping is a no-op returning false; in the code
`_query_params({})` returns `None` and `params['update_str']` raises
`TypeError` instead. -/
theorem c8_empty_changes_type_error :
    managerUpdateRows schA c8Backend [] [("id", Value.int 1)]
      = Except.error PyErr.typeError := by
  rfl

theorem matchFlags_any_iff (wd : Dict) (P : Dict → Bool) :
    ∀ (rows : List Dict) (flags : List (Dict × Bool)),
      matchFlags wd rows = Except.ok flags →
      ((flags.any (fun p => p.2 && P p.1)) = true ↔
        ∃ r, r ∈ rows ∧ rowMatchesE wd r = Except.ok true ∧ P r = true)
  | [], flags, h => by
    simp only [matchFlags, Except.ok.injEq] at h
    rw [← h]
    simp
  | r :: rs, flags, h => by
    simp only [matchFlags] at h
    cases hm : rowMatchesE wd r with
    | error e => rw [hm] at h; cases h
    | ok m =>
      rw [hm] at h
      cases hrest : matchFlags wd rs with
      | error e => rw [hrest] at h; cases h
      | ok rest =>
        rw [hrest] at h
        cases h
        have ih := matchFlags_any_iff wd P rs rest hrest
        constructor
        · intro hany
          rcases List.any_eq_true.mp hany with ⟨p, hp, hpred⟩
          rcases List.mem_cons.mp hp with h1 | h2
          · rw [h1] at hpred
            simp only [Bool.and_eq_true] at hpred
            exact ⟨r, List.mem_cons_self r rs, by rw [hm, hpred.1], hpred.2⟩
          · have := ih.mp (List.any_eq_true.mpr ⟨p, h2, hpred⟩)
            rcases this with ⟨r2, hr2, hmm, hP⟩
            exact ⟨r2, List.mem_cons_of_mem r hr2, hmm, hP⟩
        · intro hex
          rcases hex with ⟨r2, hr2, hmm, hP⟩
          rcases List.mem_cons.mp hr2 with h1 | h2
          · rw [← h1] at hm
            rw [hm] at hmm
            cases hmm
            apply List.any_eq_true.mpr
            exact ⟨(r2, true), by rw [h1]; exact List.mem_cons_self _ _, by simp [hP]⟩
          · have := ih.mpr ⟨r2, h2, hmm, hP⟩
            rcases List.any_eq_true.mp this with ⟨p, hp, hpred⟩
            exact List.any_eq_true.mpr ⟨p, List.mem_cons_of_mem _ hp, hpred⟩

/-- C8 (amended): `DBManager.update_rows` with an empty changes mapping
raises `TypeError` (no UPDATE is issued); when the call completes
normally, it returns true exactly when at least one row matched the
filter and was actually changed by the non-`None` entries of the
changes mapping (MySQL affected-rows semantics). -/
theorem c8_amended_update_rows (sch : TableSchema) (b : Backend) (changes wd : Dict) :
    (changes = [] → managerUpdateRows sch b changes wd = Except.error PyErr.typeError)
    ∧ (∀ res b2, managerUpdateRows sch b changes wd = Except.ok (res, b2) →
        (res = true ↔ ∃ r, r ∈ b.rows ∧ rowMatchesE wd r = Except.ok true
          ∧ changedRow (changes.filter (fun p => !(p.2 == Value.none))) r = true)) := by
  constructor
  · intro hempty
    rw [hempty]
    rfl
  · intro res b2 h
    unfold managerUpdateRows at h
    split at h
    case _ => cases h
    case _ => cases h
    case _ s hne hqp =>
      have hsets : s = changes.filter (fun p => !(p.2 == Value.none)) := by
        unfold queryParams at hqp
        cases changes with
        | nil => cases hqp
        | cons p rest => simp only [Option.some.injEq] at hqp; rw [← hqp]
      split at h
      · cases h
      · rename_i flags hmf
        split at h
        · cases h
        · simp only [Prod.mk.injEq, Except.ok.injEq] at h
          rw [← h.1, ← hsets]
          exact matchFlags_any_iff wd (fun r => changedRow s r) b.rows flags hmf

/-- C8 witness. -/
theorem c8_amended_update_rows_witness :
    (([("c", Value.str "z")] : Dict) = [] →
      managerUpdateRows schA c8Backend [("c", Value.str "z")] [("id", Value.int 1)]
        = Except.error PyErr.typeError)
    ∧ (∀ res b2,
        managerUpdateRows schA c8Backend [("c", Value.str "z")] [("id", Value.int 1)]
          = Except.ok (res, b2) →
        (res = true ↔ ∃ r, r ∈ c8Backend.rows
          ∧ rowMatchesE [("id", Value.int 1)] r = Except.ok true
          ∧ changedRow (([("c", Value.str "z")] : Dict).filter
              (fun p => !(p.2 == Value.none))) r = true)) :=
  c8_amended_update_rows schA c8Backend [("c", Value.str "z")] [("id", Value.int 1)]

/- ### C9 -/

/-- C9: with `protect_fields` set, assigning to a schema field whose
current cached value is non-`None` is a silent no-op (the state is
entirely unchanged); when the current value is `None`, the assignment
writes the new value through `set_field` (a `SYNCED` row becoming
`UNSYNCED`, any other status unchanged). -/
theorem c9_protect_fields (sch : TableSchema) (st : St) (k attr : String) (v : Value)
    (row : Dict) (stt : RowStatus)
    (hattr : sch.fields.contains attr = true)
    (hrow : rowsGet? st.table.rows k = some row)
    (hst : statusGet? st.table.row_status k = some stt) :
    (dictGetD row attr ≠ Value.none →
      DBEntity.setattr sch true k attr v st = (Except.ok (), st))
    ∧ (dictGetD row attr = Value.none →
      DBEntity.setattr sch true k attr v st
        = (Except.ok (),
           { st with table := { st.table with
              rows := rowsSet st.table.rows k (dictSet row attr v),
              row_status := if stt == RowStatus.SYNCED
                then statusSet st.table.row_status k RowStatus.UNSYNCED
                else st.table.row_status } })) := by
  unfold DBEntity.setattr DBEntity.get_field DBTable.get_row_by_key
  rw [hattr, hrow]
  constructor
  · intro hne
    simp only [if_pos rfl]
    have : (dictGetD row attr == Value.none) = false := by
      simp [hne]
    rw [this]
    rfl
  · intro heq
    simp only [if_pos rfl, heq]
    show DBEntity.set_field sch k attr v st = _
    unfold DBEntity.set_field DBTable.set_field
    rw [hattr, hrow]
    simp only [if_pos rfl]
    rw [hst]
    cases stt <;> rfl

/-- C9 witness. -/
theorem c9_protect_fields_witness :
    (dictGetD [("id", Value.int 1), ("u", Value.str "x"), ("c", Value.none)] "u"
        ≠ Value.none →
      DBEntity.setattr schA true "id%%1" "u" (Value.str "new") c6State
        = (Except.ok (), c6State))
    ∧ (dictGetD [("id", Value.int 1), ("u", Value.str "x"), ("c", Value.none)] "u"
        = Value.none →
      DBEntity.setattr schA true "id%%1" "u" (Value.str "new") c6State
        = (Except.ok (),
           { c6State with table := { c6State.table with
              rows := rowsSet c6State.table.rows "id%%1"
                (dictSet [("id", Value.int 1), ("u", Value.str "x"), ("c", Value.none)]
                  "u" (Value.str "new")),
              row_status := if RowStatus.DELETED == RowStatus.SYNCED
                then statusSet c6State.table.row_status "id%%1" RowStatus.UNSYNCED
                else c6State.table.row_status } })) :=
  c9_protect_fields schA c6State "id%%1" "u" (Value.str "new")
    [("id", Value.int 1), ("u", Value.str "x"), ("c", Value.none)] RowStatus.DELETED
    rfl rfl rfl

/- ### C2 -/

/-- C2 counterexample: when the repeated fields dict carries no
primary-key or unique-column value, the second insert raises no
duplicate signal at all — it stores a second copy of the row and
returns a fresh key, not the first insert's key. -/
theorem c2_second_insert_without_collision_new_key :
    (DBTable.insert_row schA 3 [("c", Value.str "x")] Duplicates.SKIP stEmpty).1
        = Except.ok ("id%%1", [("c", Value.str "x"), ("id", Value.int 1)])
    ∧ (DBTable.insert_row schA 3 [("c", Value.str "x")] Duplicates.SKIP
        (DBTable.insert_row schA 3 [("c", Value.str "x")] Duplicates.SKIP stEmpty).2).1
        = Except.ok ("id%%2", [("c", Value.str "x"), ("id", Value.int 2)])
    ∧ ((DBTable.insert_row schA 3 [("c", Value.str "x")] Duplicates.SKIP
        (DBTable.insert_row schA 3 [("c", Value.str "x")] Duplicates.SKIP stEmpty).2).2).backend.rows
        = [[("id", Value.int 1), ("u", Value.none), ("c", Value.str "x")],
           [("id", Value.int 2), ("u", Value.none), ("c", Value.str "x")]] := by
  refine ⟨rfl, rfl, rfl⟩

theorem truthy_beq_none (v : Value) (h : Value.truthy v = true) :
    (v == Value.none) = false := by
  cases v with
  | none => cases h
  | str s => rfl
  | int n => rfl

theorem beq_false_of_truthy_mismatch (x y : Value)
    (hx : Value.truthy x = true) (hy : Value.truthy y = false) : (y == x) = false := by
  cases x <;> cases y <;> simp_all [Value.truthy] <;> intro hc <;> simp_all

theorem key_id1_eq : (⟨'i' :: 'd' :: '%' :: '%' :: natDigits 1⟩ : String) = "id%%1" := rfl

theorem key_id2_eq : (⟨'i' :: 'd' :: '%' :: '%' :: natDigits 2⟩ : String) = "id%%2" := rfl

/-- C2 fixture: the state after the first insert of
`{u: s, c: tv}` into an empty `schA` table: one `SYNCED` cached row with
the generated key, and one backend row. -/
def c2St1 (s : String) (tv : Value) : St :=
  ⟨⟨[("id%%1", [("id", Value.int 1), ("u", Value.str s), ("c", tv)])],
    [("id%%1", RowStatus.SYNCED)], 0⟩,
   ⟨[[("id", Value.int 1), ("u", Value.str s), ("c", tv)]], 2⟩⟩

/-- C2 (amended): when the repeated fields dict collides on a unique
column (here `u`, carrying any plain non-empty string), the second
`insert_row` under SKIP signals a duplicate, locates the original row
through the unique column, returns the first insert's key and leaves
the whole state — stored row included — exactly as the first insert
left it. -/
theorem c2_amended_skip_idempotent (s : String) (tv : Value) (hs : plainLit s) :
    DBTable.insert_row schA 3 [("u", Value.str s), ("c", tv)] Duplicates.SKIP stEmpty
      = (Except.ok ("id%%1", [("u", Value.str s), ("c", tv), ("id", Value.int 1)]), c2St1 s tv)
    ∧ DBTable.insert_row schA 3 [("u", Value.str s), ("c", tv)] Duplicates.SKIP (c2St1 s tv)
      = (Except.ok ("id%%1", [("u", Value.str s), ("c", tv)]), c2St1 s tv) := by
  obtain ⟨h1, h2, h3, h4, h5, h6, h7⟩ := hs
  have hsne : (s == "") = false := by simp [h1]
  have hsnull : (s == "NULL") = false := by simp [h2]
  have hsnotnull : (s == "NOT NULL") = false := by simp [h3]
  cases tv <;>
  refine ⟨?_, ?_⟩ <;>
  simp [DBTable.insert_row, managerInsertRow, queryParams, materializeRow, dupAgainst,
    TableSchema.pkl, TableSchema.fields, TableSchema.keyKind?, schA, scanKeys,
    DBTable.fetch_rows, managerFetchRows, matchFlags, rowMatchesE, whereTest,
    dictGetD, dictGet?, dictSet, rowsSet, statusSet, rowsGet?, statusGet?, tryUniques,
    Value.truthy, hsne, hsnull, hsnotnull, h4, h5, h6, h7, stEmpty, c2St1, anyPairClash,
    DBTable.dict_to_key, joinDelim, pyStrChars, intChars, delimChars, key_id1_eq, key_id2_eq]

/-- C2 witness. -/
theorem c2_amended_skip_idempotent_witness :
    DBTable.insert_row schA 3 [("u", Value.str "alpha"), ("c", Value.str "beta")]
        Duplicates.SKIP stEmpty
      = (Except.ok ("id%%1",
          [("u", Value.str "alpha"), ("c", Value.str "beta"), ("id", Value.int 1)]),
         c2St1 "alpha" (Value.str "beta"))
    ∧ DBTable.insert_row schA 3 [("u", Value.str "alpha"), ("c", Value.str "beta")]
        Duplicates.SKIP (c2St1 "alpha" (Value.str "beta"))
      = (Except.ok ("id%%1", [("u", Value.str "alpha"), ("c", Value.str "beta")]),
         c2St1 "alpha" (Value.str "beta")) :=
  c2_amended_skip_idempotent "alpha" (Value.str "beta") (by decide)

/- ### C3 / C4 -/

theorem key_to_dict_id1 : DBTable.key_to_dict "id%%1" = Except.ok [("id", Value.int 1)] := rfl

theorem beq_str_none (t : String) : (Value.str t == Value.none) = false := rfl

theorem beq_int_none (n : Int) : (Value.int n == Value.none) = false := rfl

theorem beq_none_none : (Value.none == Value.none) = true := rfl

theorem truthy_str (t : String) : Value.truthy (Value.str t) = !(t == "") := rfl

theorem truthy_int (n : Int) : Value.truthy (Value.int n) = !(n == 0) := rfl

theorem truthy_none : Value.truthy Value.none = false := rfl

/-- C3/C4 fixture: an empty cache over a `schB` backend holding one row
`{id: 1, u: s, a: va, b: vb}` (so that inserting `{u: s, …}` signals a
duplicate on the unique column `u`). -/
def c34St0 (s : String) (va vb : Value) : St :=
  ⟨⟨[], [], 0⟩, ⟨[[("id", Value.int 1), ("u", Value.str s), ("a", va), ("b", vb)]], 2⟩⟩

/-- C3: under the INSERT policy, exactly the fields that are non-empty
in the new data and empty in the existing row are written: the gap
field `b` receives the new value, while `a` (already set) keeps its old
value whatever the new data proposes. When no field qualifies, nothing
is written either — the filtered update is empty, and `update_rows`
raises `TypeError` with the stored row untouched. -/
theorem c3_insert_policy_gap_fill (s : String) (va vb pa pb : Value) (hs : plainLit s)
    (hva : Value.truthy va = true) (hvb : Value.truthy vb = false) :
    (Value.truthy pb = true →
      DBTable.insert_row schB 3 [("u", Value.str s), ("a", pa), ("b", pb)]
          Duplicates.INSERT (c34St0 s va vb)
        = (Except.ok ("id%%1", [("b", pb)]),
           ⟨⟨[("id%%1", [("id", Value.int 1), ("u", Value.str s), ("a", va), ("b", pb)])],
             [("id%%1", RowStatus.SYNCED)], 0⟩,
            ⟨[[("id", Value.int 1), ("u", Value.str s), ("a", va), ("b", pb)]], 2⟩⟩))
    ∧ (Value.truthy pb = false →
      DBTable.insert_row schB 3 [("u", Value.str s), ("a", pa), ("b", pb)]
          Duplicates.INSERT (c34St0 s va vb)
        = (Except.error PyErr.typeError,
           ⟨⟨[("id%%1", [("id", Value.int 1), ("u", Value.str s), ("a", va), ("b", vb)])],
             [("id%%1", RowStatus.SYNCED)], 0⟩,
            ⟨[[("id", Value.int 1), ("u", Value.str s), ("a", va), ("b", vb)]], 2⟩⟩)) := by
  obtain ⟨h1, h2, h3, h4, h5, h6, h7⟩ := hs
  have hsne : (s == "") = false := by simp [h1]
  have hsnull : (s == "NULL") = false := by simp [h2]
  have hsnotnull : (s == "NOT NULL") = false := by simp [h3]
  constructor
  · intro hpb
    have hpbne : (pb == Value.none) = false := truthy_beq_none pb hpb
    have hbne : (vb == pb) = false := beq_false_of_truthy_mismatch pb vb hpb hvb
    cases pa <;>
    simp [DBTable.insert_row, managerInsertRow, queryParams, materializeRow, dupAgainst,
      TableSchema.pkl, TableSchema.fields, TableSchema.keyKind?, schB, scanKeys,
      DBTable.fetch_rows, managerFetchRows, matchFlags, rowMatchesE, whereTest,
      dictGetD, dictGet?, dictSet, rowsSet, statusSet, rowsGet?, statusGet?, tryUniques,
      c34St0, anyPairClash, insFilter, applyPolicyUpdate,
      DBTable.update_row, DBTable.get_row_by_key, managerUpdateRows, applySets, changedRow,
      key_to_dict_id1, beq_str_none, beq_int_none, beq_none_none,
      truthy_str, truthy_int, truthy_none,
      hsne, hsnull, hsnotnull, h4, h5, h6, h7, hva, hvb, hpb, hpbne, hbne,
      DBTable.dict_to_key, joinDelim, pyStrChars, intChars, delimChars, key_id1_eq]
  · intro hpb
    cases pa <;> cases pb <;>
    simp [DBTable.insert_row, managerInsertRow, queryParams, materializeRow, dupAgainst,
      TableSchema.pkl, TableSchema.fields, TableSchema.keyKind?, schB, scanKeys,
      DBTable.fetch_rows, managerFetchRows, matchFlags, rowMatchesE, whereTest,
      dictGetD, dictGet?, dictSet, rowsSet, statusSet, rowsGet?, statusGet?, tryUniques,
      c34St0, anyPairClash, insFilter, applyPolicyUpdate,
      DBTable.update_row, DBTable.get_row_by_key, managerUpdateRows, applySets, changedRow,
      key_to_dict_id1, beq_str_none, beq_int_none, beq_none_none,
      truthy_str, truthy_int, truthy_none,
      hsne, hsnull, hsnotnull, h4, h5, h6, h7, hva, hvb, hpb,
      DBTable.dict_to_key, joinDelim, pyStrChars, intChars, delimChars, key_id1_eq]

/-- C3 witness (the spec's own example: existing `{a: "x", b: null}`,
new `{a: "y", b: "z"}`, result `{a: "x", b: "z"}`). -/
theorem c3_insert_policy_gap_fill_witness :
    (Value.truthy (Value.str "z") = true →
      DBTable.insert_row schB 3
          [("u", Value.str "k"), ("a", Value.str "y"), ("b", Value.str "z")]
          Duplicates.INSERT (c34St0 "k" (Value.str "x") Value.none)
        = (Except.ok ("id%%1", [("b", Value.str "z")]),
           ⟨⟨[("id%%1", [("id", Value.int 1), ("u", Value.str "k"),
                ("a", Value.str "x"), ("b", Value.str "z")])],
             [("id%%1", RowStatus.SYNCED)], 0⟩,
            ⟨[[("id", Value.int 1), ("u", Value.str "k"),
               ("a", Value.str "x"), ("b", Value.str "z")]], 2⟩⟩))
    ∧ (Value.truthy (Value.str "z") = false →
      DBTable.insert_row schB 3
          [("u", Value.str "k"), ("a", Value.str "y"), ("b", Value.str "z")]
          Duplicates.INSERT (c34St0 "k" (Value.str "x") Value.none)
        = (Except.error PyErr.typeError,
           ⟨⟨[("id%%1", [("id", Value.int 1), ("u", Value.str "k"),
                ("a", Value.str "x"), ("b", Value.none)])],
             [("id%%1", RowStatus.SYNCED)], 0⟩,
            ⟨[[("id", Value.int 1), ("u", Value.str "k"),
               ("a", Value.str "x"), ("b", Value.none)]], 2⟩⟩)) :=
  c3_insert_policy_gap_fill "k" (Value.str "x") Value.none (Value.str "y") (Value.str "z")
    (by decide) (by decide) (by decide)

/-- C4: under the OVERWRITE policy, every non-empty field of the new
data overwrites the existing row's value (`u`, `b`), while a field that
is empty in the new data (`a`, with any falsy value) or absent (`id`)
leaves the existing value untouched — an empty new value never blanks
existing data. -/
theorem c4_overwrite_policy (s : String) (va vb pa pb : Value) (hs : plainLit s)
    (hpa : Value.truthy pa = false) (hpb : Value.truthy pb = true) :
    DBTable.insert_row schB 3 [("u", Value.str s), ("a", pa), ("b", pb)]
        Duplicates.OVERWRITE (c34St0 s va vb)
      = (Except.ok ("id%%1", [("u", Value.str s), ("b", pb)]),
         ⟨⟨[("id%%1", [("id", Value.int 1), ("u", Value.str s), ("a", va), ("b", pb)])],
           [("id%%1", RowStatus.SYNCED)], 0⟩,
          ⟨[[("id", Value.int 1), ("u", Value.str s), ("a", va), ("b", pb)]], 2⟩⟩) := by
  obtain ⟨h1, h2, h3, h4, h5, h6, h7⟩ := hs
  have hsne : (s == "") = false := by simp [h1]
  have hsnull : (s == "NULL") = false := by simp [h2]
  have hsnotnull : (s == "NOT NULL") = false := by simp [h3]
  have hpbne : (pb == Value.none) = false := truthy_beq_none pb hpb
  cases pa <;> (
    by_cases hvbpb : vb = pb
    · subst hvbpb
      simp [DBTable.insert_row, managerInsertRow, queryParams, materializeRow, dupAgainst,
        TableSchema.pkl, TableSchema.fields, TableSchema.keyKind?, schB, scanKeys,
        DBTable.fetch_rows, managerFetchRows, matchFlags, rowMatchesE, whereTest,
        dictGetD, dictGet?, dictSet, rowsSet, statusSet, rowsGet?, statusGet?, tryUniques,
        c34St0, anyPairClash, insFilter, applyPolicyUpdate,
        DBTable.update_row, DBTable.get_row_by_key, managerUpdateRows, applySets, changedRow,
        key_to_dict_id1, beq_str_none, beq_int_none, beq_none_none,
        truthy_str, truthy_int, truthy_none,
        hsne, hsnull, hsnotnull, h4, h5, h6, h7, hpa, hpb, hpbne,
        DBTable.dict_to_key, joinDelim, pyStrChars, intChars, delimChars, key_id1_eq]
    · simp [DBTable.insert_row, managerInsertRow, queryParams, materializeRow, dupAgainst,
        TableSchema.pkl, TableSchema.fields, TableSchema.keyKind?, schB, scanKeys,
        DBTable.fetch_rows, managerFetchRows, matchFlags, rowMatchesE, whereTest,
        dictGetD, dictGet?, dictSet, rowsSet, statusSet, rowsGet?, statusGet?, tryUniques,
        c34St0, anyPairClash, insFilter, applyPolicyUpdate,
        DBTable.update_row, DBTable.get_row_by_key, managerUpdateRows, applySets, changedRow,
        key_to_dict_id1, beq_str_none, beq_int_none, beq_none_none,
        truthy_str, truthy_int, truthy_none,
        hsne, hsnull, hsnotnull, h4, h5, h6, h7, hpa, hpb, hpbne,
        beq_eq_false_iff_ne.mpr hvbpb,
        DBTable.dict_to_key, joinDelim, pyStrChars, intChars, delimChars, key_id1_eq])

/-- C4 witness (the spec's own example: existing `{a: "x", b: "y"}`,
new `{a: "", b: "z"}`, result `{a: "x", b: "z"}`). -/
theorem c4_overwrite_policy_witness :
    DBTable.insert_row schB 3
        [("u", Value.str "k"), ("a", Value.str ""), ("b", Value.str "z")]
        Duplicates.OVERWRITE (c34St0 "k" (Value.str "x") (Value.str "y"))
      = (Except.ok ("id%%1", [("u", Value.str "k"), ("b", Value.str "z")]),
         ⟨⟨[("id%%1", [("id", Value.int 1), ("u", Value.str "k"),
              ("a", Value.str "x"), ("b", Value.str "z")])],
           [("id%%1", RowStatus.SYNCED)], 0⟩,
          ⟨[[("id", Value.int 1), ("u", Value.str "k"),
             ("a", Value.str "x"), ("b", Value.str "z")]], 2⟩⟩) :=
  c4_overwrite_policy "k" (Value.str "x") (Value.str "y") (Value.str "") (Value.str "z")
    (by decide) (by decide) (by decide)

/- ### C5 -/

/-- C5 counterexample: the claim restricts only the values, but a
*column name* containing the delimiter breaks the round-trip — the
encoded string splits into three parts and `key_to_dict` raises
`ValueError`. -/
theorem c5_key_with_delimiter_breaks_roundtrip :
    DBTable.key_to_dict (DBTable.dict_to_key [("a%%b", Value.int 1)])
        = Except.error PyErr.valueError
    ∧ DBTable.key_to_dict (DBTable.dict_to_key [("a%%b", Value.int 1)])
        ≠ Except.ok [("a%%b", Value.int 1)] := by
  refine ⟨rfl, by decide⟩

/-- Whether a character list contains the delimiter `"%%"`. -/
def hasDD : List Char → Bool
  | [] => false
  | [_] => false
  | c1 :: c2 :: rest => (c1 == '%' && c2 == '%') || hasDD (c2 :: rest)

/-- Whether a character list ends with `'%'` (in which case the
delimiter that follows it in the joined string is misparsed). -/
def endsPct (l : List Char) : Bool := l.getLast? == some '%'

/-- A codec-safe part: contains no `"%%"` and does not end with `'%'`. -/
def goodChars (l : List Char) : Bool := !(hasDD l) && !(endsPct l)

theorem splitDD_append :
    ∀ (p rest : List Char), hasDD p = false → endsPct p = false →
      splitDD (p ++ '%' :: '%' :: rest) = p :: splitDD rest
  | [], rest, _, _ => by
    show splitDD ('%' :: '%' :: rest) = [] :: splitDD rest
    rw [splitDD]
    rw [if_pos ⟨rfl, rfl⟩]
  | [c], rest, _, h2 => by
    have hc : ¬(c = '%') := by
      intro he
      rw [he] at h2
      exact absurd h2 (by decide)
    show splitDD (c :: '%' :: '%' :: rest) = [c] :: splitDD rest
    rw [splitDD]
    rw [if_neg (fun hand => hc hand.1)]
    have h0 : splitDD ('%' :: '%' :: rest) = [] :: splitDD rest := by
      rw [splitDD]
      rw [if_pos ⟨rfl, rfl⟩]
    rw [h0]
  | c :: c2 :: p'', rest, h1, h2 => by
    have h1' : hasDD (c2 :: p'') = false := by
      unfold hasDD at h1
      rcases Bool.or_eq_false_iff.mp h1 with ⟨_, hr⟩
      exact hr
    have hcc : ((c == '%') && (c2 == '%')) = false := by
      unfold hasDD at h1
      rcases Bool.or_eq_false_iff.mp h1 with ⟨hl, _⟩
      exact hl
    have h2' : endsPct (c2 :: p'') = false := by
      unfold endsPct at h2 ⊢
      rw [List.getLast?_cons_cons] at h2
      exact h2
    show splitDD (c :: c2 :: (p'' ++ '%' :: '%' :: rest)) = (c :: c2 :: p'') :: splitDD rest
    rw [splitDD]
    rw [if_neg (fun hand => by
      rw [hand.1, hand.2] at hcc
      exact absurd hcc (by decide))]
    have hrec : splitDD (c2 :: (p'' ++ '%' :: '%' :: rest)) = (c2 :: p'') :: splitDD rest :=
      splitDD_append (c2 :: p'') rest h1' h2'
    rw [hrec]

theorem splitDD_single :
    ∀ (p : List Char), hasDD p = false → splitDD p = [p]
  | [], _ => rfl
  | [_], _ => rfl
  | c1 :: c2 :: rest, h => by
    have h1' : hasDD (c2 :: rest) = false := by
      unfold hasDD at h
      rcases Bool.or_eq_false_iff.mp h with ⟨_, hr⟩
      exact hr
    have hcc : ((c1 == '%') && (c2 == '%')) = false := by
      unfold hasDD at h
      rcases Bool.or_eq_false_iff.mp h with ⟨hl, _⟩
      exact hl
    rw [splitDD]
    rw [if_neg (fun hand => by
      rw [hand.1, hand.2] at hcc
      exact absurd hcc (by decide))]
    rw [splitDD_single (c2 :: rest) h1']

theorem splitDD_joinDelim :
    ∀ (parts : List (List Char)), parts ≠ [] →
      (∀ p ∈ parts, goodChars p = true) →
      splitDD (joinDelim parts) = parts
  | [], hne, _ => absurd rfl hne
  | [p], _, h => by
    have hp := h p (List.mem_singleton.mpr rfl)
    simp only [goodChars, Bool.and_eq_true, Bool.not_eq_true'] at hp
    show splitDD p = [p]
    exact splitDD_single p hp.1
  | p :: q :: ps, _, h => by
    have hp := h p (List.mem_cons_self p (q :: ps))
    simp only [goodChars, Bool.and_eq_true, Bool.not_eq_true'] at hp
    show splitDD (p ++ delimChars ++ joinDelim (q :: ps)) = p :: (q :: ps)
    have halt : p ++ delimChars ++ joinDelim (q :: ps)
        = p ++ '%' :: '%' :: joinDelim (q :: ps) := by
      unfold delimChars
      rw [List.append_assoc]
      rfl
    rw [halt,
      splitDD_append p (joinDelim (q :: ps)) hp.1 hp.2,
      splitDD_joinDelim (q :: ps) (by simp)
        (fun r hr => h r (List.mem_cons_of_mem p hr))]

theorem joinDelim_append :
    ∀ (A B : List (List Char)), A ≠ [] → B ≠ [] →
      joinDelim (A ++ B) = joinDelim A ++ delimChars ++ joinDelim B
  | [], _, hA, _ => absurd rfl hA
  | [p], B, _, hB => by
    cases B with
    | nil => exact absurd rfl hB
    | cons q bs =>
      show joinDelim (p :: q :: bs) = joinDelim [p] ++ delimChars ++ joinDelim (q :: bs)
      rw [joinDelim]
      rfl
  | p :: q :: ps, B, _, hB => by
    show joinDelim (p :: ((q :: ps) ++ B))
        = (p ++ delimChars ++ joinDelim (q :: ps)) ++ delimChars ++ joinDelim B
    rw [joinDelim]
    case _ =>
      rw [joinDelim_append (q :: ps) B (by simp) hB]
      simp [List.append_assoc]
    case _ => simp

theorem no_pct_hasDD :
    ∀ (l : List Char), (∀ c ∈ l, ¬ c = '%') → hasDD l = false
  | [], _ => rfl
  | [_], _ => rfl
  | c1 :: c2 :: rest, h => by
    unfold hasDD
    rw [no_pct_hasDD (c2 :: rest) (fun c hc => h c (List.mem_cons_of_mem c1 hc))]
    have h1 : (c1 == '%') = false := by
      simp only [beq_eq_false_iff_ne, ne_eq]
      exact h c1 (List.mem_cons_self c1 (c2 :: rest))
    rw [h1]
    rfl

theorem no_pct_endsPct :
    ∀ (l : List Char), (∀ c ∈ l, ¬ c = '%') → endsPct l = false
  | [], _ => rfl
  | [c], h => by
    unfold endsPct
    simp only [List.getLast?_singleton, Option.some.injEq, beq_eq_false_iff_ne, ne_eq]
    exact h c (List.mem_singleton.mpr rfl)
  | a :: b :: l, h => by
    unfold endsPct
    rw [List.getLast?_cons_cons]
    exact no_pct_endsPct (b :: l) (fun c hc => h c (List.mem_cons_of_mem a hc))

theorem goodChars_of_no_pct (l : List Char) (h : ∀ c ∈ l, ¬ c = '%') :
    goodChars l = true := by
  unfold goodChars
  rw [no_pct_hasDD l h, no_pct_endsPct l h]
  rfl

theorem natDigits_no_pct (m : Nat) : ∀ c ∈ natDigits m, ¬ c = '%' := by
  intro c hc he
  have := natDigits_digits m c hc
  rw [he] at this
  exact absurd this (by decide)

theorem intChars_good (n : Int) : goodChars (intChars n) = true := by
  cases n with
  | ofNat m => exact goodChars_of_no_pct _ (natDigits_no_pct m)
  | negSucc k =>
    apply goodChars_of_no_pct
    intro c hc
    rcases List.mem_cons.mp hc with h1 | h2
    · rw [h1]; decide
    · exact natDigits_no_pct (k + 1) c h2

theorem dropWhile_no_ws (l : List Char) (h : ∀ c ∈ l, c.isWhitespace = false) :
    l.dropWhile Char.isWhitespace = l := by
  cases l with
  | nil => rfl
  | cons c cs =>
    rw [List.dropWhile_cons_of_neg]
    rw [h c (List.mem_cons_self c cs)]
    exact Bool.false_ne_true

theorem trimWS_no_ws (l : List Char) (h : ∀ c ∈ l, c.isWhitespace = false) :
    trimWS l = l := by
  unfold trimWS
  rw [dropWhile_no_ws l h,
    dropWhile_no_ws l.reverse (fun c hc => h c (List.mem_reverse.mp hc)),
    List.reverse_reverse]

theorem ws_false_of_isDigit (c : Char) (h : c.isDigit = true) :
    c.isWhitespace = false := by
  unfold Char.isDigit at h
  simp only [Bool.and_eq_true, decide_eq_true_eq] at h
  unfold Char.isWhitespace
  have h1 : ¬ c = ' ' := fun he => by rw [he] at h; exact absurd h.1 (by decide)
  have h2 : ¬ c = Char.ofNat 9 := fun he => by rw [he] at h; exact absurd h.1 (by decide)
  have h3 : ¬ c = Char.ofNat 13 := fun he => by rw [he] at h; exact absurd h.1 (by decide)
  have h4 : ¬ c = Char.ofNat 10 := fun he => by rw [he] at h; exact absurd h.1 (by decide)
  simp [h1, h2, h3, h4]

theorem natDigits_no_ws (m : Nat) : ∀ c ∈ natDigits m, c.isWhitespace = false :=
  fun c hc => ws_false_of_isDigit c (natDigits_digits m c hc)

theorem pyInt?_intChars (n : Int) : pyInt? (intChars n) = some n := by
  cases n with
  | ofNat m =>
    show pyInt? (natDigits m) = some (Int.ofNat m)
    unfold pyInt?
    rw [trimWS_no_ws (natDigits m) (natDigits_no_ws m)]
    cases hnd : natDigits m with
    | nil => exact absurd hnd (natDigits_ne_nil m)
    | cons c cs =>
      have hall := natDigits_digits m
      rw [hnd] at hall
      have hc : c.isDigit = true := hall c (List.mem_cons_self c cs)
      simp only [pyIntCore]
      rw [if_neg (ne_of_isDigit c '-' hc (by decide)),
        if_neg (ne_of_isDigit c '+' hc (by decide))]
      rw [← hnd, digitsVal_natDigits m]
      rfl
  | negSucc k =>
    show pyInt? ('-' :: natDigits (k + 1)) = some (Int.negSucc k)
    unfold pyInt?
    rw [trimWS_no_ws ('-' :: natDigits (k + 1)) (by
      intro c hc
      rcases List.mem_cons.mp hc with h1 | h2
      · rw [h1]; decide
      · exact natDigits_no_ws (k + 1) c h2)]
    simp only [pyIntCore, if_true]
    rw [digitsVal_natDigits (k + 1)]
    simp [Int.negSucc_eq]

theorem dictGet?_append_of_none :
    ∀ (d1 d2 : Dict) (k : String), dictGet? d1 k = Option.none →
      dictGet? (d1 ++ d2) k = dictGet? d2 k
  | [], _, _, _ => rfl
  | p :: rest, d2, k, h => by
    rw [List.cons_append]
    unfold dictGet? at h
    show (if (p.1 == k) = true then some p.2 else dictGet? (rest ++ d2) k) = dictGet? d2 k
    by_cases hpk : (p.1 == k) = true
    · rw [hpk] at h; cases h
    · rw [Bool.not_eq_true] at hpk
      rw [hpk] at h
      rw [hpk]
      simp only [Bool.false_eq_true, if_false]
      exact dictGet?_append_of_none rest d2 k h

theorem dictSet_of_none :
    ∀ (d : Dict) (k : String) (v : Value), dictGet? d k = Option.none →
      dictSet d k v = d ++ [(k, v)]
  | [], _, _, _ => rfl
  | p :: rest, k, v, h => by
    rw [List.cons_append]
    unfold dictGet? at h
    unfold dictSet
    by_cases hpk : (p.1 == k) = true
    · rw [hpk] at h; cases h
    · rw [Bool.not_eq_true] at hpk
      rw [hpk] at h
      rw [hpk]
      simp only [Bool.false_eq_true, if_false]
      rw [dictSet_of_none rest k v h]

theorem foldl_dictSet_fresh :
    ∀ (l : List (String × Value)) (acc : Dict),
      (∀ p ∈ l, dictGet? acc p.1 = Option.none) →
      (l.map (fun p => p.1)).Nodup →
      l.foldl (fun a p => dictSet a p.1 p.2) acc = acc ++ l
  | [], acc, _, _ => by simp
  | p :: rest, acc, hfresh, hnd => by
    simp only [List.foldl_cons]
    rw [dictSet_of_none acc p.1 p.2 (hfresh p (List.mem_cons_self p rest))]
    have hnotin : p.1 ∉ rest.map (fun q => q.1) := (List.nodup_cons.mp hnd).1
    rw [foldl_dictSet_fresh rest (acc ++ [(p.1, p.2)])
      (by
        intro q hq
        rw [dictGet?_append_of_none acc [(p.1, p.2)] q.1 (hfresh q (List.mem_cons_of_mem p hq))]
        have hne : (p.1 == q.1) = false := by
          simp only [beq_eq_false_iff_ne, ne_eq]
          intro he
          exact hnotin (he ▸ List.mem_map_of_mem (fun r => r.1) hq)
        unfold dictGet?
        rw [hne]
        rfl)
      (List.nodup_cons.mp hnd).2]
    simp

/-- The value restriction of the (amended) round-trip claim: an integer,
or a "plain" string — one that contains no `"%%"`, does not end in `'%'`
and does not parse as a Python `int`. -/
def goodValue : Value → Prop
  | Value.none => False
  | Value.str t => goodChars t.data = true ∧ pyInt? t.data = Option.none
  | Value.int _ => True

theorem pyStrChars_good (v : Value) (h : goodValue v) :
    goodChars (pyStrChars v) = true := by
  cases v with
  | none => exact absurd h (fun hf => hf)
  | str t => exact h.1
  | int n => exact intChars_good n

theorem pyVal_roundtrip (v : Value) (h : goodValue v) :
    pyValOfChars (pyStrChars v) = v := by
  cases v with
  | none => exact absurd h (fun hf => hf)
  | str t =>
    show pyValOfChars t.data = Value.str t
    unfold pyValOfChars
    rw [h.2]
  | int n =>
    show pyValOfChars (intChars n) = Value.int n
    unfold pyValOfChars
    rw [pyInt?_intChars n]

/-- C5 (amended): for every non-empty primary-key dict with distinct
keys, whose column names contain no `"%%"` and do not end in `'%'`, and
whose values are integers or plain strings (containing no `"%%"`, not
ending in `'%'`, and not parsing as a Python int),
`key_to_dict (dict_to_key d) = d`. -/
theorem c5_amended_roundtrip (d : Dict) (hne : d ≠ [])
    (hnd : (dictKeys d).Nodup)
    (hgood : ∀ p ∈ d, goodChars p.1.data = true ∧ goodValue p.2) :
    DBTable.key_to_dict (DBTable.dict_to_key d) = Except.ok d := by
  have hKne : d.map (fun p => p.1.data) ≠ [] := by
    simp only [ne_eq, List.map_eq_nil_iff]
    exact hne
  have hVne : d.map (fun p => pyStrChars p.2) ≠ [] := by
    simp only [ne_eq, List.map_eq_nil_iff]
    exact hne
  have hsplit : splitDD ((DBTable.dict_to_key d).data)
      = (d.map fun p => p.1.data) ++ (d.map fun p => pyStrChars p.2) := by
    have hdata : (DBTable.dict_to_key d).data
        = joinDelim (d.map fun p => p.1.data) ++ delimChars
          ++ joinDelim (d.map fun p => pyStrChars p.2) := rfl
    rw [hdata, ← joinDelim_append _ _ hKne hVne]
    apply splitDD_joinDelim
    · simp only [ne_eq, List.append_eq_nil]
      intro hc
      exact hne (List.map_eq_nil_iff.mp hc.1)
    · intro p hp
      rcases List.mem_append.mp hp with h1 | h1
      · rcases List.mem_map.mp h1 with ⟨q, hq, hqe⟩
        rw [← hqe]
        exact (hgood q hq).1
      · rcases List.mem_map.mp h1 with ⟨q, hq, hqe⟩
        rw [← hqe]
        exact pyStrChars_good q.2 (hgood q hq).2
  have hlen : ((d.map fun p => p.1.data) ++ (d.map fun p => pyStrChars p.2)).length / 2
      = d.length := by
    simp only [List.length_append, List.length_map]
    omega
  simp only [DBTable.key_to_dict]
  rw [hsplit, hlen]
  rw [List.take_left' (List.length_map d _), List.drop_left' (List.length_map d _)]
  have hcond : ¬((d.length == 0) = true
      ∨ (!((d.map fun p => p.1.data).length == (d.map fun p => pyStrChars p.2).length)) = true) := by
    simp only [List.length_map, beq_self_eq_true, Bool.not_true, Bool.false_eq_true, or_false]
    simp only [beq_iff_eq]
    intro hc
    exact hne (List.length_eq_zero.mp hc)
  rw [if_neg hcond]
  rw [List.zip_map']
  rw [List.foldl_map]
  rw [List.foldl_ext _ _ []
    (fun a p hp => by
      show dictSet a (String.mk p.1.data) (pyValOfChars (pyStrChars p.2)) = dictSet a p.1 p.2
      rw [pyVal_roundtrip p.2 (hgood p hp).2])]
  rw [foldl_dictSet_fresh d [] (fun p _ => rfl) hnd]
  rfl

/-- C5 witness. -/
theorem c5_amended_roundtrip_witness :
    DBTable.key_to_dict
        (DBTable.dict_to_key [("idpaper", Value.int 12), ("name", Value.str "mike")])
      = Except.ok [("idpaper", Value.int 12), ("name", Value.str "mike")] :=
  c5_amended_roundtrip [("idpaper", Value.int 12), ("name", Value.str "mike")]
    (by simp)
    (by decide)
    (by
      intro p hp
      rcases List.mem_cons.mp hp with h | h
      · subst h
        exact ⟨by decide, trivial⟩
      · rcases List.mem_cons.mp h with h2 | h2
        · subst h2
          exact ⟨by decide, by decide, by decide⟩
        · cases h2)
